import Mathlib

/-!
Shallow embedding of the booking core of the smart-meeting-room system.

Two source variants are embedded:
* the legacy bookings service (`bookings_service/app/routers/bookings.py` with
  `bookings_service/app/models.py`): `has_overlap`, `create_booking`,
  `update_booking`, `cancel_booking` (soft cancel via `status = "cancelled"`),
  `check_availability`;
* the newer services tree (`services/bookings/app.py` with `common/models.py`
  and `common/schemas.py`): `_ensure_availability` (no status filter),
  `create_booking` with the room existence/activity check and the
  fire-and-forget RabbitMQ event emission.

Timestamps are modelled as integers (UTC instants); room/user/booking ids as
naturals; booking status as the string the source stores.
-/

/-- Half-open interval overlap test extracted from the SQL filter
`start_time < end AND end_time > start` used by both variants:
the stored interval is `[s1, e1)`, the candidate is `[s2, e2)`. -/
def overlaps (s1 e1 s2 e2 : Int) : Bool :=
  s1 < e2 && e1 > s2

/-- Booking row of the legacy bookings service (`models.Booking`):
id, user_id, room_id, start_time, end_time, status (default "confirmed"),
created_at. -/
structure LBooking where
  id : Nat
  user_id : Nat
  room_id : Nat
  start_time : Int
  end_time : Int
  status : String
  created_at : Int
deriving Repr, DecidableEq

/-- Persistent store of the legacy bookings service: the booking rows plus the
autoincrement counter assigning primary keys. -/
structure LStore where
  bookings : List LBooking
  nextId : Nat
deriving Repr, DecidableEq

/-- Failure kinds of the booking operations; the source surfaces them as HTTP
errors (400 "Invalid time range", 400/409 slot conflict, 404 booking not found,
404 "Room not found or inactive"). -/
inductive BErr where
  | invalidRange
  | slotConflict
  | notFound
  | roomUnavailable
deriving Repr, DecidableEq

/-- One row of the legacy overlap scan `has_overlap`: same room, status
confirmed, interval overlap, and not the excluded id. -/
def scanHit (roomId : Nat) (startT endT : Int) (excludeId : Option Nat)
    (b : LBooking) : Bool :=
  b.room_id == roomId && b.status == "confirmed" &&
    overlaps b.start_time b.end_time startT endT &&
    (match excludeId with
     | none => true
     | some i => b.id != i)

/-- Legacy `has_overlap`: does any stored confirmed booking of the room
overlap the candidate interval (excluding, when given, one booking id)? -/
def has_overlap (s : LStore) (roomId : Nat) (startT endT : Int)
    (excludeId : Option Nat) : Bool :=
  s.bookings.any (scanHit roomId startT endT excludeId)

/-- Legacy `create_booking` (HTTP/auth wrapper stripped, per the spec the
requester identity arrives as `userId`): reject an empty/inverted range,
reject on overlap, else insert a fresh row with the model defaults
`status = "confirmed"`, `created_at = now`. -/
def create_booking (s : LStore) (userId roomId : Nat) (startT endT now : Int) :
    Except BErr (LBooking × LStore) :=
  if startT ≥ endT then Except.error BErr.invalidRange
  else if has_overlap s roomId startT endT none then Except.error BErr.slotConflict
  else
    let b : LBooking := ⟨s.nextId, userId, roomId, startT, endT, "confirmed", now⟩
    Except.ok (b, ⟨s.bookings ++ [b], s.nextId + 1⟩)

/-- Patch body of the legacy `BookingUpdate` schema: optional room and
interval endpoints; it has no status field. -/
structure LBookingUpdate where
  room_id : Option Nat
  start_time : Option Int
  end_time : Option Int
deriving Repr, DecidableEq

/-- Replace the first row whose id matches `bid` by its image under `f`,
leaving every other row untouched; models the ORM mutating the row returned
by `query(...).filter(id == bid).first()`. -/
def setFirstById (bs : List LBooking) (bid : Nat) (f : LBooking → LBooking) :
    List LBooking :=
  match bs with
  | [] => []
  | b :: rest => if b.id == bid then f b :: rest else b :: setFirstById rest bid f

/-- Lookup `query(Booking).filter(Booking.id == booking_id).first()`. -/
def find_booking (s : LStore) (bid : Nat) : Option LBooking :=
  s.bookings.find? (fun b => b.id == bid)

/-- Legacy `update_booking` (auth wrapper stripped): 404 when the id is
unknown; merge the patch over the current values; reject an inverted range;
reject on overlap with any OTHER confirmed booking (self-exclusion by id);
else persist the merged room and interval. Status is never written. -/
def update_booking (s : LStore) (bid : Nat) (patch : LBookingUpdate) :
    Except BErr (LBooking × LStore) :=
  match find_booking s bid with
  | none => Except.error BErr.notFound
  | some b =>
    let newRoom := patch.room_id.getD b.room_id
    let newStart := patch.start_time.getD b.start_time
    let newEnd := patch.end_time.getD b.end_time
    if newStart ≥ newEnd then Except.error BErr.invalidRange
    else if has_overlap s newRoom newStart newEnd (some b.id) then
      Except.error BErr.slotConflict
    else
      Except.ok
        ({ b with room_id := newRoom, start_time := newStart, end_time := newEnd },
         ⟨setFirstById s.bookings bid
            (fun c => { c with room_id := newRoom, start_time := newStart, end_time := newEnd }),
          s.nextId⟩)

/-- Legacy `cancel_booking` (auth wrapper stripped): 404 when the id is
unknown, else set the row's status to "cancelled" and keep the row. -/
def cancel_booking (s : LStore) (bid : Nat) : Except BErr LStore :=
  match find_booking s bid with
  | none => Except.error BErr.notFound
  | some _ =>
      Except.ok ⟨setFirstById s.bookings bid (fun c => { c with status := "cancelled" }),
        s.nextId⟩

/-- Legacy `check_availability`: the negation of `has_overlap`. -/
def check_availability (s : LStore) (roomId : Nat) (startT endT : Int) : Bool :=
  !has_overlap s roomId startT endT none

/-- One request against the legacy booking operations. -/
inductive LOp where
  | create (userId roomId : Nat) (startT endT now : Int)
  | update (bid : Nat) (patch : LBookingUpdate)
  | cancel (bid : Nat)
deriving Repr

/-- Run one operation; a failing operation raises before any mutation in the
source, so it leaves the store unchanged. -/
def applyOp (s : LStore) (o : LOp) : LStore :=
  match o with
  | LOp.create u r st en now =>
    match create_booking s u r st en now with
    | Except.ok (_, s') => s'
    | Except.error _ => s
  | LOp.update bid p =>
    match update_booking s bid p with
    | Except.ok (_, s') => s'
    | Except.error _ => s
  | LOp.cancel bid =>
    match cancel_booking s bid with
    | Except.ok s' => s'
    | Except.error _ => s

/-- Run a sequence of operations left to right. -/
def applyOps (s : LStore) (ops : List LOp) : LStore :=
  match ops with
  | [] => s
  | o :: rest => applyOps (applyOp s o) rest

/-- Invariant I2: any two distinct (by id) confirmed bookings of the same room
have non-overlapping intervals. -/
def noConfirmedOverlap (s : LStore) : Prop :=
  ∀ a ∈ s.bookings, ∀ b ∈ s.bookings,
    a.id ≠ b.id → a.status = "confirmed" → b.status = "confirmed" →
    a.room_id = b.room_id →
    overlaps a.start_time a.end_time b.start_time b.end_time = false

instance (s : LStore) : Decidable (noConfirmedOverlap s) := by
  unfold noConfirmedOverlap; infer_instance

/-- Primary keys are pairwise distinct, as the database guarantees. -/
def idsNodup (s : LStore) : Prop :=
  (s.bookings.map LBooking.id).Nodup

instance (s : LStore) : Decidable (idsNodup s) := by
  unfold idsNodup; infer_instance

/-- Room row of the newer services tree (`common/models.py`), reduced to the
fields the booking core reads: id and the active flag. -/
structure SRoom where
  id : Nat
  is_active : Bool
deriving Repr, DecidableEq

/-- Booking row of the newer services tree (`common/models.py`): no
created_at column. -/
structure SBooking where
  id : Nat
  user_id : Nat
  room_id : Nat
  start_time : Int
  end_time : Int
  status : String
deriving Repr, DecidableEq

/-- Store of the newer services tree: rooms, bookings and the autoincrement
counter for booking primary keys. -/
structure SStore where
  rooms : List SRoom
  bookings : List SBooking
  nextId : Nat
deriving Repr, DecidableEq

/-- Request body `BookingCreate` of `common/schemas.py`: room, interval and a
status field whose schema default is "confirmed". -/
structure SBookingCreate where
  room_id : Nat
  start_time : Int
  end_time : Int
  status : String
deriving Repr, DecidableEq

/-- `_ensure_availability` of `services/bookings/app.py`, as a predicate that
is true exactly when the 409 conflict is raised. The scan has NO status
filter; `if exclude_booking_id:` is Python truthiness, so an exclusion id of
0 excludes nothing. -/
def ensure_availability_conflict (s : SStore) (roomId : Nat) (startT endT : Int)
    (excludeId : Option Nat) : Bool :=
  s.bookings.any (fun b =>
    b.room_id == roomId && overlaps b.start_time b.end_time startT endT &&
      (match excludeId with
       | none => true
       | some i => if i == 0 then true else b.id != i))

/-- Payload of the `booking_created` message sent to the queue. -/
structure SEvent where
  booking_id : Nat
  user_id : Nat
  room_id : Nat
  start_time : Int
  end_time : Int
deriving Repr, DecidableEq

/-- Result of one run of the newer `create_booking`: the caller-visible
result, the final store, and the events that actually reached the queue. -/
structure SCreateOutcome where
  result : Except BErr SBooking
  store : SStore
  emitted : List SEvent
deriving Repr

/-- `create_booking` of `services/bookings/app.py`: reject `end <= start`;
404 unless an active room with the requested id exists; 409 on conflict; else
insert the row (status comes from the request schema, default "confirmed")
and then attempt the RabbitMQ publish. `emitResult` is the outcome of that
attempt; the source wraps it in try/except, so a failure is logged only: the
event is simply not emitted and the created booking is still returned. -/
def s_create_booking (s : SStore) (userId : Nat) (inp : SBookingCreate)
    (emitResult : Except String Unit) : SCreateOutcome :=
  if inp.end_time ≤ inp.start_time then ⟨Except.error BErr.invalidRange, s, []⟩
  else
    match s.rooms.find? (fun r => r.id == inp.room_id && r.is_active) with
    | none => ⟨Except.error BErr.roomUnavailable, s, []⟩
    | some _ =>
      if ensure_availability_conflict s inp.room_id inp.start_time inp.end_time none then
        ⟨Except.error BErr.slotConflict, s, []⟩
      else
        let b : SBooking :=
          ⟨s.nextId, userId, inp.room_id, inp.start_time, inp.end_time, inp.status⟩
        let s' : SStore := ⟨s.rooms, s.bookings ++ [b], s.nextId + 1⟩
        match emitResult with
        | Except.ok _ =>
          ⟨Except.ok b, s', [⟨b.id, b.user_id, b.room_id, b.start_time, b.end_time⟩]⟩
        | Except.error _ => ⟨Except.ok b, s', []⟩

/-- Patch body `BookingUpdate` of `common/schemas.py`: optional room, interval
endpoints AND status; `model_dump(exclude_unset=True)` is modelled by `none`
meaning "field not sent". -/
structure SBookingUpdate where
  room_id : Option Nat
  start_time : Option Int
  end_time : Option Int
  status : Option String
deriving Repr, DecidableEq

/-- The `for key, value in data.items(): setattr(booking, key, value)` loop of
the services update: every field the patch carries is written onto the row,
the unsent fields keep their values. -/
def applyPatchS (p : SBookingUpdate) (b : SBooking) : SBooking :=
  { b with
    room_id := p.room_id.getD b.room_id,
    start_time := p.start_time.getD b.start_time,
    end_time := p.end_time.getD b.end_time,
    status := p.status.getD b.status }

/-- First-id-match replacement for services booking rows (the ORM mutates the
row returned by `.first()`). -/
def s_setFirstById (bs : List SBooking) (bid : Nat) (f : SBooking → SBooking) :
    List SBooking :=
  match bs with
  | [] => []
  | b :: rest => if b.id == bid then f b :: rest else b :: s_setFirstById rest bid f

/-- `update_booking` of `services/bookings/app.py` (auth wrapper stripped):
404 when the id is unknown; merge room and interval over the current values;
reject `end <= start`; 409 on overlap with any OTHER booking (exclusion by
id, Python truthiness); else write every patched field onto the row —
including `status`, which the services `BookingUpdate` schema carries. -/
def s_update_booking (s : SStore) (bid : Nat) (patch : SBookingUpdate) :
    Except BErr (SBooking × SStore) :=
  match s.bookings.find? (fun b => b.id == bid) with
  | none => Except.error BErr.notFound
  | some b =>
    let newRoom := patch.room_id.getD b.room_id
    let newStart := patch.start_time.getD b.start_time
    let newEnd := patch.end_time.getD b.end_time
    if newEnd ≤ newStart then Except.error BErr.invalidRange
    else if ensure_availability_conflict s newRoom newStart newEnd (some b.id) then
      Except.error BErr.slotConflict
    else
      Except.ok (applyPatchS patch b,
        ⟨s.rooms, s_setFirstById s.bookings bid (applyPatchS patch), s.nextId⟩)

/-! Helper lemmas about the overlap oracle and the scan. -/

/-- The overlap test is symmetric in its two intervals. -/
theorem overlaps_symm (s1 e1 s2 e2 : Int) :
    overlaps s1 e1 s2 e2 = overlaps s2 e2 s1 e1 := by
  unfold overlaps
  by_cases h1 : s1 < e2 <;> by_cases h2 : s2 < e1 <;> simp [h1, h2, gt_iff_lt]

/-- Characterisation of the legacy scan without exclusion: a conflict is
reported exactly when some stored booking is confirmed, is in the requested
room, and overlaps the candidate interval. -/
theorem has_overlap_iff (s : LStore) (roomId : Nat) (startT endT : Int) :
    has_overlap s roomId startT endT none = true ↔
      ∃ c ∈ s.bookings, c.status = "confirmed" ∧ c.room_id = roomId ∧
        overlaps c.start_time c.end_time startT endT = true := by
  simp only [has_overlap, List.any_eq_true, scanHit, Bool.and_eq_true, beq_iff_eq,
    Bool.and_true]
  constructor
  · rintro ⟨c, hc, ⟨⟨hroom, hstat⟩, hov⟩⟩
    exact ⟨c, hc, hstat, hroom, hov⟩
  · rintro ⟨c, hc, hstat, hroom, hov⟩
    exact ⟨c, hc, ⟨⟨hroom, hstat⟩, hov⟩⟩

/-- If the scan reports no conflict, then a stored booking in the requested
room that is confirmed and passes the exclusion check cannot overlap the
candidate interval. -/
theorem no_hit {s : LStore} {r : Nat} {st en : Int} {ex : Option Nat}
    (hov : has_overlap s r st en ex = false) {c : LBooking} (hc : c ∈ s.bookings)
    (hroom : c.room_id = r) (hstat : c.status = "confirmed")
    (hex : ∀ i, ex = some i → c.id ≠ i) :
    overlaps c.start_time c.end_time st en = false := by
  have hfalse : scanHit r st en ex c = false := by
    rw [has_overlap, List.any_eq_false] at hov
    simpa using hov c hc
  unfold scanHit at hfalse
  rw [hroom, hstat] at hfalse
  cases ex with
  | none => simpa using hfalse
  | some i =>
    have hne : (c.id != i) = true := by simpa using hex i rfl
    simpa [hne] using hfalse

/-- Membership in the list after replacing the first id match: an element of
the new list is an old element or the image of an old element with that id. -/
theorem mem_setFirstById {bs : List LBooking} {bid : Nat} {f : LBooking → LBooking}
    {x : LBooking} (h : x ∈ setFirstById bs bid f) :
    x ∈ bs ∨ ∃ c, c ∈ bs ∧ c.id = bid ∧ x = f c := by
  induction bs with
  | nil => simp [setFirstById] at h
  | cons b rest ih =>
    rw [setFirstById] at h
    by_cases hb : (b.id == bid) = true
    · rw [if_pos hb] at h
      rcases List.mem_cons.mp h with hxe | hxr
      · exact Or.inr ⟨b, List.mem_cons_self b rest, by simpa using hb, hxe⟩
      · exact Or.inl (List.mem_cons_of_mem b hxr)
    · rw [if_neg hb] at h
      rcases List.mem_cons.mp h with hxe | hxr
      · exact Or.inl (by simp [hxe])
      · rcases ih hxr with hold | ⟨c, hcmem, hcid, hxeq⟩
        · exact Or.inl (List.mem_cons_of_mem b hold)
        · exact Or.inr ⟨c, List.mem_cons_of_mem b hcmem, hcid, hxeq⟩

/-! Characterisations of the successful branches of the legacy operations. -/

/-- Successful creation: the range was valid, the scan found no conflict, and
the returned booking is a fresh confirmed row appended to the store. -/
theorem create_booking_ok {s : LStore} {u r : Nat} {st en now : Int}
    {b : LBooking} {s' : LStore}
    (h : create_booking s u r st en now = Except.ok (b, s')) :
    ¬ st ≥ en ∧ has_overlap s r st en none = false ∧
      b = ⟨s.nextId, u, r, st, en, "confirmed", now⟩ ∧
      s' = ⟨s.bookings ++ [b], s.nextId + 1⟩ := by
  unfold create_booking at h
  by_cases h1 : st ≥ en
  · rw [if_pos h1] at h; simp at h
  · rw [if_neg h1] at h
    by_cases h2 : has_overlap s r st en none = true
    · rw [if_pos h2] at h; simp at h
    · rw [if_neg h2] at h
      simp only [Except.ok.injEq, Prod.mk.injEq] at h
      obtain ⟨hb, hs⟩ := h
      refine ⟨h1, by simpa using h2, hb.symm, ?_⟩
      rw [← hs, hb]

/-- Successful update: a row with the id was found, the merged range was
valid, the self-excluding scan found no conflict, and the store holds the
merged row in place of the original. -/
theorem update_booking_ok {s : LStore} {bid : Nat} {p : LBookingUpdate}
    {b' : LBooking} {s' : LStore}
    (h : update_booking s bid p = Except.ok (b', s')) :
    ∃ b, find_booking s bid = some b ∧
      ¬ p.start_time.getD b.start_time ≥ p.end_time.getD b.end_time ∧
      has_overlap s (p.room_id.getD b.room_id) (p.start_time.getD b.start_time)
        (p.end_time.getD b.end_time) (some b.id) = false ∧
      b' = { b with room_id := p.room_id.getD b.room_id,
                    start_time := p.start_time.getD b.start_time,
                    end_time := p.end_time.getD b.end_time } ∧
      s' = ⟨setFirstById s.bookings bid
              (fun c => { c with room_id := p.room_id.getD b.room_id,
                                 start_time := p.start_time.getD b.start_time,
                                 end_time := p.end_time.getD b.end_time }),
            s.nextId⟩ := by
  unfold update_booking at h
  cases hfind : find_booking s bid with
  | none => rw [hfind] at h; simp at h
  | some b =>
    rw [hfind] at h
    dsimp only at h
    by_cases h1 : p.start_time.getD b.start_time ≥ p.end_time.getD b.end_time
    · rw [if_pos h1] at h; simp at h
    · rw [if_neg h1] at h
      by_cases h2 : has_overlap s (p.room_id.getD b.room_id)
          (p.start_time.getD b.start_time) (p.end_time.getD b.end_time) (some b.id) = true
      · rw [if_pos h2] at h; simp at h
      · rw [if_neg h2] at h
        simp only [Except.ok.injEq, Prod.mk.injEq] at h
        obtain ⟨hb, hs⟩ := h
        exact ⟨b, rfl, h1, by simpa using h2, hb.symm, hs.symm⟩

/-- Successful cancellation: a row with the id was found and the store is the
old one with the first id match set to cancelled. -/
theorem cancel_booking_ok {s : LStore} {bid : Nat} {s' : LStore}
    (h : cancel_booking s bid = Except.ok s') :
    s' = ⟨setFirstById s.bookings bid (fun c => { c with status := "cancelled" }),
      s.nextId⟩ := by
  unfold cancel_booking at h
  cases hfind : find_booking s bid with
  | none => rw [hfind] at h; simp at h
  | some b =>
    rw [hfind] at h
    dsimp only at h
    simp only [Except.ok.injEq] at h
    exact h.symm

/-! Preservation of invariant I2 by each operation. -/

/-- A successful creation preserves I2. -/
theorem create_preserves {s : LStore} {u r : Nat} {st en now : Int}
    {b : LBooking} {s' : LStore} (hinv : noConfirmedOverlap s)
    (h : create_booking s u r st en now = Except.ok (b, s')) :
    noConfirmedOverlap s' := by
  obtain ⟨-, hov, hb, hs⟩ := create_booking_ok h
  subst hs
  intro x hx y hy hid hxs hys hroom
  simp only [List.mem_append, List.mem_singleton] at hx hy
  rcases hx with hx | hx <;> rcases hy with hy | hy
  · exact hinv x hx y hy hid hxs hys hroom
  · subst hy; subst hb
    have hxr : x.room_id = r := hroom
    exact no_hit hov hx hxr hxs (fun i hi => by cases hi)
  · subst hx; subst hb
    have hyr : y.room_id = r := hroom.symm
    rw [overlaps_symm]
    exact no_hit hov hy hyr hys (fun i hi => by cases hi)
  · subst hx; subst hy; exact absurd rfl hid

/-- A successful update preserves I2: the merged interval was checked against
every other confirmed booking thanks to self-exclusion by id. -/
theorem update_preserves {s : LStore} {bid : Nat} {p : LBookingUpdate}
    {b' : LBooking} {s' : LStore} (hinv : noConfirmedOverlap s)
    (h : update_booking s bid p = Except.ok (b', s')) :
    noConfirmedOverlap s' := by
  obtain ⟨b, hfind, -, hov, -, hs⟩ := update_booking_ok h
  have hbid : b.id = bid := by
    have := List.find?_some hfind
    simpa using this
  subst hs
  intro x hx y hy hid hxs hys hroom
  rcases mem_setFirstById hx with hxold | ⟨cx, hcx, hcxid, hxeq⟩ <;>
    rcases mem_setFirstById hy with hyold | ⟨cy, hcy, hcyid, hyeq⟩
  · exact hinv x hxold y hyold hid hxs hys hroom
  · -- y is the updated row, x an untouched one
    subst hyeq
    have hyid : cy.id = b.id := by rw [hbid, hcyid]
    have hxid : x.id ≠ b.id := by
      intro hcon
      exact hid (by simpa [hyid] using hcon)
    have hxr : x.room_id = p.room_id.getD b.room_id := by simpa using hroom
    have hx0 := no_hit hov hxold hxr hxs (fun i hi => by
      cases hi; simpa [hbid] using hxid)
    exact hx0
  · -- x is the updated row, y an untouched one
    subst hxeq
    have hxid : cx.id = b.id := by rw [hbid, hcxid]
    have hyid : y.id ≠ b.id := by
      intro hcon
      exact hid (by simpa [hxid] using hcon.symm)
    have hyr : y.room_id = p.room_id.getD b.room_id := by simpa using hroom.symm
    have hy0 := no_hit hov hyold hyr hys (fun i hi => by
      cases hi; simpa [hbid] using hyid)
    rw [overlaps_symm]
    exact hy0
  · subst hxeq; subst hyeq
    exact absurd (by simp [hcxid, hcyid]) hid

/-- A successful cancellation preserves I2: it only shrinks the set of
confirmed bookings. -/
theorem cancel_preserves {s : LStore} {bid : Nat} {s' : LStore}
    (hinv : noConfirmedOverlap s) (h : cancel_booking s bid = Except.ok s') :
    noConfirmedOverlap s' := by
  have hs := cancel_booking_ok h
  subst hs
  intro x hx y hy hid hxs hys hroom
  rcases mem_setFirstById hx with hxold | ⟨cx, hcx, hcxid, hxeq⟩
  · rcases mem_setFirstById hy with hyold | ⟨cy, hcy, hcyid, hyeq⟩
    · exact hinv x hxold y hyold hid hxs hys hroom
    · subst hyeq
      simp at hys
  · subst hxeq
    simp at hxs

/-- Any single operation preserves I2. -/
theorem applyOp_preserves (s : LStore) (o : LOp) (h : noConfirmedOverlap s) :
    noConfirmedOverlap (applyOp s o) := by
  cases o with
  | create u r st en now =>
    simp only [applyOp]
    cases hc : create_booking s u r st en now with
    | ok v =>
      obtain ⟨b, s'⟩ := v
      exact create_preserves h hc
    | error e => exact h
  | update bid p =>
    simp only [applyOp]
    cases hc : update_booking s bid p with
    | ok v =>
      obtain ⟨b, s'⟩ := v
      exact update_preserves h hc
    | error e => exact h
  | cancel bid =>
    simp only [applyOp]
    cases hc : cancel_booking s bid with
    | ok s' => exact cancel_preserves h hc
    | error e => exact h

/-- C1: the overlap oracle is exactly the strict half-open interval test
`s1 < e2 AND e1 > s2`; back-to-back intervals (10:00-11:00 against
11:00-12:00, in minutes of the day) do not overlap, while 10:00-11:00
against 10:59-12:00 do. -/
theorem claim_C1_overlap_oracle :
    (∀ s1 e1 s2 e2 : Int, overlaps s1 e1 s2 e2 = true ↔ (s1 < e2 ∧ e1 > s2)) ∧
    overlaps 600 660 660 720 = false ∧
    overlaps 600 660 659 720 = true := by
  refine ⟨fun s1 e1 s2 e2 => ?_, by decide, by decide⟩
  simp [overlaps]

/-- C2: starting from a store whose confirmed bookings are pairwise
non-overlapping per room, every sequence of create, update and cancel
operations leaves the store with that property (invariant I2 / property P1). -/
theorem claim_C2_invariant_preserved (s : LStore) (ops : List LOp)
    (h : noConfirmedOverlap s) : noConfirmedOverlap (applyOps s ops) := by
  induction ops generalizing s with
  | nil => exact h
  | cons o rest ih => exact ih (applyOp s o) (applyOp_preserves s o h)

/-- Concrete run for C2: an initially empty store stays conflict-free across
a create, an update, a cancel and a re-create. -/
theorem claim_C2_invariant_preserved_witness :
    noConfirmedOverlap (applyOps ⟨[], 1⟩
      [LOp.create 1 1 600 660 0, LOp.update 1 ⟨none, some 630, some 690⟩,
       LOp.cancel 1, LOp.create 2 1 600 660 5]) :=
  claim_C2_invariant_preserved ⟨[], 1⟩
    [LOp.create 1 1 600 660 0, LOp.update 1 ⟨none, some 630, some 690⟩,
     LOp.cancel 1, LOp.create 2 1 600 660 5] (by decide)

/-! Helper lemmas about lookup and replacement under distinct primary keys. -/

/-- With pairwise-distinct ids, looking up a stored booking's id finds that
booking. -/
theorem find?_id_eq_of_nodup {bs : List LBooking} {b : LBooking}
    (hnd : (bs.map LBooking.id).Nodup) (hb : b ∈ bs) :
    bs.find? (fun c => c.id == b.id) = some b := by
  induction bs with
  | nil => simp at hb
  | cons a rest ih =>
    rw [List.map_cons, List.nodup_cons] at hnd
    obtain ⟨ha, hrest⟩ := hnd
    rcases List.mem_cons.mp hb with hba | hbr
    · subst hba
      exact List.find?_cons_of_pos rest (by simp)
    · have hane : ¬ ((fun c => c.id == b.id) a = true) := by
        simp only [beq_iff_eq]
        intro he
        exact ha (by rw [he]; exact List.mem_map_of_mem LBooking.id hbr)
      rw [List.find?_cons_of_neg rest hane]
      exact ih hrest hbr

/-- With pairwise-distinct ids, an element of the list after replacing the
(unique) row with id `b.id` is either the replaced row's image or an untouched
old row with a different id. -/
theorem mem_setFirstById_nodup {bs : List LBooking} {b : LBooking}
    {f : LBooking → LBooking} (hnd : (bs.map LBooking.id).Nodup) (hb : b ∈ bs)
    {x : LBooking} (hx : x ∈ setFirstById bs b.id f) :
    x = f b ∨ (x ∈ bs ∧ x.id ≠ b.id) := by
  induction bs with
  | nil => simp at hb
  | cons a rest ih =>
    rw [List.map_cons, List.nodup_cons] at hnd
    obtain ⟨ha, hrest⟩ := hnd
    rw [setFirstById] at hx
    by_cases hab : (a.id == b.id) = true
    · rw [if_pos hab] at hx
      have hae : a = b := by
        rcases List.mem_cons.mp hb with h1 | h1
        · exact h1.symm
        · exfalso
          apply ha
          have hide : a.id = b.id := by simpa using hab
          rw [hide]
          exact List.mem_map_of_mem LBooking.id h1
      subst hae
      rcases List.mem_cons.mp hx with hxe | hxr
      · exact Or.inl hxe
      · refine Or.inr ⟨List.mem_cons_of_mem a hxr, ?_⟩
        intro he
        apply ha
        rw [← he]
        exact List.mem_map_of_mem LBooking.id hxr
    · rw [if_neg hab] at hx
      have hbr : b ∈ rest := by
        rcases List.mem_cons.mp hb with h1 | h1
        · exact absurd (by rw [h1]; simp) hab
        · exact h1
      rcases List.mem_cons.mp hx with hxe | hxr
      · refine Or.inr ⟨?_, ?_⟩
        · rw [hxe]
          exact List.mem_cons_self a rest
        · intro he
          rw [hxe] at he
          exact hab (by simp [he])
      · rcases ih hrest hbr hxr with h1 | ⟨h2, h3⟩
        · exact Or.inl h1
        · exact Or.inr ⟨List.mem_cons_of_mem a h2, h3⟩

/-- C3: with a valid range, creation fails with a slot conflict and leaves the
store unchanged exactly when some existing confirmed booking of the room
overlaps the requested interval; otherwise it appends exactly one new
confirmed booking carrying the requester's user id and the freshly assigned
primary key, and returns it. -/
theorem claim_C3_create_semantics (s : LStore) (u roomId : Nat) (st en now : Int)
    (hr : st < en) :
    ((∃ c ∈ s.bookings, c.status = "confirmed" ∧ c.room_id = roomId ∧
        overlaps c.start_time c.end_time st en = true) →
      create_booking s u roomId st en now = Except.error BErr.slotConflict ∧
      applyOp s (LOp.create u roomId st en now) = s) ∧
    ((¬ ∃ c ∈ s.bookings, c.status = "confirmed" ∧ c.room_id = roomId ∧
        overlaps c.start_time c.end_time st en = true) →
      ∃ b, create_booking s u roomId st en now =
          Except.ok (b, ⟨s.bookings ++ [b], s.nextId + 1⟩) ∧
        b.status = "confirmed" ∧ b.user_id = u ∧ b.id = s.nextId) := by
  have hnotge : ¬ st ≥ en := not_le.mpr hr
  constructor
  · intro hex
    have hov : has_overlap s roomId st en none = true :=
      (has_overlap_iff s roomId st en).mpr hex
    have hcr : create_booking s u roomId st en now = Except.error BErr.slotConflict := by
      unfold create_booking
      rw [if_neg hnotge, if_pos hov]
    refine ⟨hcr, ?_⟩
    simp only [applyOp, hcr]
  · intro hnex
    have hov : ¬ (has_overlap s roomId st en none = true) := fun hval =>
      hnex ((has_overlap_iff s roomId st en).mp hval)
    refine ⟨⟨s.nextId, u, roomId, st, en, "confirmed", now⟩, ?_, rfl, rfl, rfl⟩
    unfold create_booking
    rw [if_neg hnotge, if_neg hov]

/-- Store with one confirmed booking of room 1 over 10:00-11:00, used to
instantiate the hypothesised theorems. -/
def demoStoreA : LStore := ⟨[⟨1, 1, 1, 600, 660, "confirmed", 0⟩], 2⟩

/-- Concrete run for C3 on a store holding a confirmed 10:00-11:00 booking of
room 1, requesting 10:30-11:30 on the same room. -/
theorem claim_C3_create_semantics_witness :
    ((∃ c ∈ demoStoreA.bookings, c.status = "confirmed" ∧ c.room_id = 1 ∧
        overlaps c.start_time c.end_time 630 690 = true) →
      create_booking demoStoreA 2 1 630 690 0 = Except.error BErr.slotConflict ∧
      applyOp demoStoreA (LOp.create 2 1 630 690 0) = demoStoreA) ∧
    ((¬ ∃ c ∈ demoStoreA.bookings, c.status = "confirmed" ∧ c.room_id = 1 ∧
        overlaps c.start_time c.end_time 630 690 = true) →
      ∃ b, create_booking demoStoreA 2 1 630 690 0 =
          Except.ok (b, ⟨demoStoreA.bookings ++ [b], demoStoreA.nextId + 1⟩) ∧
        b.status = "confirmed" ∧ b.user_id = 2 ∧ b.id = demoStoreA.nextId) :=
  claim_C3_create_semantics demoStoreA 2 1 630 690 0 (by decide)

/-- C4: the legacy conflict scan counts only confirmed bookings, and after
cancelling a confirmed booking a creation for its exact room and interval
succeeds. Hypotheses: distinct primary keys, invariant I2, and the stored
booking satisfies I1 (`start_time < end_time`). -/
theorem claim_C4_cancelled_never_conflicts (s : LStore) (b : LBooking) (u : Nat)
    (now : Int) (hnd : idsNodup s) (hinv : noConfirmedOverlap s)
    (hb : b ∈ s.bookings) (hconf : b.status = "confirmed")
    (hr : b.start_time < b.end_time) :
    (∀ roomId st en, has_overlap s roomId st en none = true ↔
      ∃ c ∈ s.bookings, c.status = "confirmed" ∧ c.room_id = roomId ∧
        overlaps c.start_time c.end_time st en = true) ∧
    ∃ s' nb s'', cancel_booking s b.id = Except.ok s' ∧
      create_booking s' u b.room_id b.start_time b.end_time now =
        Except.ok (nb, s'') := by
  refine ⟨fun roomId st en => has_overlap_iff s roomId st en, ?_⟩
  have hfind : find_booking s b.id = some b := find?_id_eq_of_nodup hnd hb
  have hcan : cancel_booking s b.id = Except.ok
      ⟨setFirstById s.bookings b.id (fun c => { c with status := "cancelled" }),
        s.nextId⟩ := by
    unfold cancel_booking
    rw [hfind]
  have hov : ¬ (has_overlap
      (⟨setFirstById s.bookings b.id (fun c => { c with status := "cancelled" }),
        s.nextId⟩ : LStore) b.room_id b.start_time b.end_time none = true) := by
    intro hval
    obtain ⟨c, hc, hcs, hcr, hcov⟩ := (has_overlap_iff _ b.room_id b.start_time
      b.end_time).mp hval
    rcases mem_setFirstById_nodup hnd hb hc with hceq | ⟨hcmem, hcid⟩
    · rw [hceq] at hcs
      simp at hcs
    · have hfa := hinv c hcmem b hb hcid hcs hconf hcr
      rw [hfa] at hcov
      simp at hcov
  have hnotge : ¬ b.start_time ≥ b.end_time := not_le.mpr hr
  refine ⟨⟨setFirstById s.bookings b.id (fun c => { c with status := "cancelled" }),
      s.nextId⟩,
    ⟨s.nextId, u, b.room_id, b.start_time, b.end_time, "confirmed", now⟩,
    ⟨setFirstById s.bookings b.id (fun c => { c with status := "cancelled" }) ++
      [⟨s.nextId, u, b.room_id, b.start_time, b.end_time, "confirmed", now⟩],
      s.nextId + 1⟩, hcan, ?_⟩
  unfold create_booking
  rw [if_neg hnotge, if_neg hov]

/-- Concrete run for C4 on the one-booking store: cancel booking 1, then
rebook room 1 for 10:00-11:00. -/
theorem claim_C4_cancelled_never_conflicts_witness :
    (∀ roomId st en, has_overlap demoStoreA roomId st en none = true ↔
      ∃ c ∈ demoStoreA.bookings, c.status = "confirmed" ∧ c.room_id = roomId ∧
        overlaps c.start_time c.end_time st en = true) ∧
    ∃ s' nb s'', cancel_booking demoStoreA 1 = Except.ok s' ∧
      create_booking s' 2 1 600 660 0 = Except.ok (nb, s'') :=
  claim_C4_cancelled_never_conflicts demoStoreA ⟨1, 1, 1, 600, 660, "confirmed", 0⟩
    2 0 (by decide) (by decide) (by decide) (by decide) (by decide)

/-- C5: in the services variant, with a valid range, creation fails with
"Room not found or inactive" and inserts nothing whenever no active room with
the requested id exists. -/
theorem claim_C5_room_unavailable (s : SStore) (u : Nat) (inp : SBookingCreate)
    (e : Except String Unit) (hr : inp.start_time < inp.end_time)
    (hroom : ∀ r ∈ s.rooms, r.id = inp.room_id → r.is_active = false) :
    (s_create_booking s u inp e).result = Except.error BErr.roomUnavailable ∧
    (s_create_booking s u inp e).store = s := by
  have hnotle : ¬ inp.end_time ≤ inp.start_time := not_le.mpr hr
  have hfind : s.rooms.find? (fun r => r.id == inp.room_id && r.is_active) = none := by
    rw [List.find?_eq_none]
    intro r hrmem
    simp only [Bool.and_eq_true, beq_iff_eq, not_and]
    intro hid
    simp [hroom r hrmem hid]
  unfold s_create_booking
  rw [if_neg hnotle, hfind]
  exact ⟨rfl, rfl⟩

/-- Services-variant store with one inactive room and no bookings. -/
def demoSStore : SStore := ⟨[⟨1, false⟩], [], 1⟩

/-- Concrete run for C5: booking the inactive room 1 fails with the room
error and changes nothing. -/
theorem claim_C5_room_unavailable_witness :
    (s_create_booking demoSStore 7 ⟨1, 0, 60, "confirmed"⟩ (Except.ok ())).result =
      Except.error BErr.roomUnavailable ∧
    (s_create_booking demoSStore 7 ⟨1, 0, 60, "confirmed"⟩ (Except.ok ())).store =
      demoSStore :=
  claim_C5_room_unavailable demoSStore 7 ⟨1, 0, 60, "confirmed"⟩ (Except.ok ())
    (by decide) (by decide)

/-! Further structural lemmas about setFirstById. -/

/-- Replacing a row by itself changes nothing (used for idempotent cancel):
with distinct ids, if the replacement fixes the unique matching row, the list
is unchanged. -/
theorem setFirstById_fix {bs : List LBooking} {b : LBooking}
    {f : LBooking → LBooking} (hnd : (bs.map LBooking.id).Nodup) (hb : b ∈ bs)
    (hf : f b = b) : setFirstById bs b.id f = bs := by
  induction bs with
  | nil => rfl
  | cons a rest ih =>
    rw [List.map_cons, List.nodup_cons] at hnd
    obtain ⟨ha, hrest⟩ := hnd
    rw [setFirstById]
    by_cases hab : (a.id == b.id) = true
    · rw [if_pos hab]
      have hae : a = b := by
        rcases List.mem_cons.mp hb with h1 | h1
        · exact h1.symm
        · exfalso
          apply ha
          have hide : a.id = b.id := by simpa using hab
          rw [hide]
          exact List.mem_map_of_mem LBooking.id h1
      rw [hae, hf]
    · rw [if_neg hab]
      have hbr : b ∈ rest := by
        rcases List.mem_cons.mp hb with h1 | h1
        · exact absurd (by rw [h1]; simp) hab
        · exact h1
      rw [ih hrest hbr]

/-- Replacement of the first id match preserves the list of statuses whenever
the replacement function does not touch the status field. -/
theorem map_status_setFirstById (bs : List LBooking) (bid : Nat)
    (f : LBooking → LBooking) (hf : ∀ c, (f c).status = c.status) :
    (setFirstById bs bid f).map LBooking.status = bs.map LBooking.status := by
  induction bs with
  | nil => rfl
  | cons a rest ih =>
    rw [setFirstById]
    by_cases hab : (a.id == bid) = true
    · rw [if_pos hab]
      simp [hf a]
    · rw [if_neg hab]
      simp [ih]

/-- Replacement of the first id match preserves length. -/
theorem length_setFirstById (bs : List LBooking) (bid : Nat)
    (f : LBooking → LBooking) :
    (setFirstById bs bid f).length = bs.length := by
  induction bs with
  | nil => rfl
  | cons a rest ih =>
    rw [setFirstById]
    by_cases hab : (a.id == bid) = true
    · rw [if_pos hab]; simp
    · rw [if_neg hab]; simp [ih]

/-- Positional description of the replacement: the row at any index is either
unchanged, or (when its id matches) the image of the old row. -/
theorem getElem?_setFirstById (bs : List LBooking) (bid : Nat)
    (f : LBooking → LBooking) (i : Nat) (x : LBooking)
    (hx : bs[i]? = some x) :
    ∃ y, (setFirstById bs bid f)[i]? = some y ∧
      (y = x ∨ (x.id = bid ∧ y = f x)) := by
  induction bs generalizing i with
  | nil => simp at hx
  | cons a rest ih =>
    rw [setFirstById]
    by_cases hab : (a.id == bid) = true
    · rw [if_pos hab]
      cases i with
      | zero =>
        simp only [List.getElem?_cons_zero, Option.some.injEq] at hx
        refine ⟨f a, by simp, Or.inr ⟨?_, by rw [hx]⟩⟩
        rw [← hx]
        simpa using hab
      | succ j =>
        simp only [List.getElem?_cons_succ] at hx
        exact ⟨x, by simpa using hx, Or.inl rfl⟩
    · rw [if_neg hab]
      cases i with
      | zero =>
        simp only [List.getElem?_cons_zero, Option.some.injEq] at hx
        exact ⟨a, by simp, Or.inl hx⟩
      | succ j =>
        simp only [List.getElem?_cons_succ] at hx
        obtain ⟨y, hy, hcase⟩ := ih j hx
        exact ⟨y, by simpa using hy, hcase⟩

/-- Replacement of the first id match preserves the services status list when
the replacement does not touch status. -/
theorem s_map_status_setFirstById (bs : List SBooking) (bid : Nat)
    (f : SBooking → SBooking) (hf : ∀ c, (f c).status = c.status) :
    (s_setFirstById bs bid f).map SBooking.status = bs.map SBooking.status := by
  induction bs with
  | nil => rfl
  | cons a rest ih =>
    rw [s_setFirstById]
    by_cases hab : (a.id == bid) = true
    · rw [if_pos hab]
      simp [hf a]
    · rw [if_neg hab]
      simp [ih]

/-- Successful services update: a row with the id was found, and the store
holds the fully patched row (status included) in its place. -/
theorem s_update_booking_ok {s : SStore} {bid : Nat} {patch : SBookingUpdate}
    {b' : SBooking} {s' : SStore}
    (h : s_update_booking s bid patch = Except.ok (b', s')) :
    ∃ b, s.bookings.find? (fun c => c.id == bid) = some b ∧
      b' = applyPatchS patch b ∧
      s' = ⟨s.rooms, s_setFirstById s.bookings bid (applyPatchS patch),
        s.nextId⟩ := by
  unfold s_update_booking at h
  cases hfind : s.bookings.find? (fun c => c.id == bid) with
  | none => rw [hfind] at h; simp at h
  | some b =>
    rw [hfind] at h
    dsimp only at h
    by_cases h1 : patch.end_time.getD b.end_time ≤ patch.start_time.getD b.start_time
    · rw [if_pos h1] at h; simp at h
    · rw [if_neg h1] at h
      by_cases h2 : ensure_availability_conflict s (patch.room_id.getD b.room_id)
          (patch.start_time.getD b.start_time) (patch.end_time.getD b.end_time)
          (some b.id) = true
      · rw [if_pos h2] at h; simp at h
      · rw [if_neg h2] at h
        simp only [Except.ok.injEq, Prod.mk.injEq] at h
        exact ⟨b, rfl, h.1.symm, h.2.symm⟩

/-- C6 counterexample: the cited services update applies the patch's status
field, so updating a cancelled booking with status "confirmed" succeeds and
resurrects it to confirmed — the update changes the status, operates on a
non-confirmed booking, and raises no InvalidState. -/
theorem claim_C6_counterexample :
    s_update_booking ⟨[⟨1, true⟩], [⟨1, 1, 1, 0, 60, "cancelled"⟩], 2⟩ 1
      ⟨none, none, none, some "confirmed"⟩ =
      Except.ok (⟨1, 1, 1, 0, 60, "confirmed"⟩,
        ⟨[⟨1, true⟩], [⟨1, 1, 1, 0, 60, "confirmed"⟩], 2⟩) := rfl

/-- C6 amended: the services update applies exactly the fields the patch
carries, so it changes a booking's status only when the patch explicitly
sets one; whenever the patch leaves status unset, a successful update
preserves every stored booking's status and returns the row with its own
status unchanged (a cancelled booking then stays cancelled). Updates of
cancelled bookings are processed, never rejected with InvalidState, and a
patch carrying status "confirmed" does move a cancelled booking back to
confirmed. -/
theorem claim_C6_amended (s : SStore) (bid : Nat) (patch : SBookingUpdate)
    (b' : SBooking) (s' : SStore) (hst : patch.status = none)
    (h : s_update_booking s bid patch = Except.ok (b', s')) :
    s'.bookings.map SBooking.status = s.bookings.map SBooking.status ∧
    ∃ b, s.bookings.find? (fun c => c.id == bid) = some b ∧
      b'.status = b.status := by
  obtain ⟨b, hfind, hb', hs⟩ := s_update_booking_ok h
  have hkeep : ∀ c, (applyPatchS patch c).status = c.status := by
    intro c
    unfold applyPatchS
    rw [hst]
    rfl
  refine ⟨?_, b, hfind, ?_⟩
  · rw [hs]
    exact s_map_status_setFirstById s.bookings bid _ hkeep
  · rw [hb']
    exact hkeep b

/-- C7: with distinct primary keys, cancelling an already-cancelled booking
succeeds and leaves the store exactly as it was (the row stays, still
cancelled), and cancellation fails with NotFound precisely when no stored
booking carries the requested id. -/
theorem claim_C7_cancel_idempotent_and_notfound (s : LStore) (hnd : idsNodup s) :
    (∀ b ∈ s.bookings, b.status = "cancelled" →
      cancel_booking s b.id = Except.ok s) ∧
    (∀ bid, cancel_booking s bid = Except.error BErr.notFound ↔
      ∀ b ∈ s.bookings, b.id ≠ bid) := by
  have hkey : ∀ bid, find_booking s bid = none ↔ ∀ b ∈ s.bookings, b.id ≠ bid := by
    intro bid
    unfold find_booking
    rw [List.find?_eq_none]
    simp
  constructor
  · intro b hb hbc
    have hfind : find_booking s b.id = some b := find?_id_eq_of_nodup hnd hb
    have hfb : (fun c => { c with status := "cancelled" }) b = b := by
      cases b with
      | mk idv uv rv sv ev stv cv =>
        dsimp only at hbc ⊢
        rw [hbc]
    unfold cancel_booking
    rw [hfind, setFirstById_fix hnd hb hfb]
  · intro bid
    constructor
    · intro hcan
      rw [← hkey bid]
      cases hfind : find_booking s bid with
      | none => rfl
      | some b =>
        exfalso
        unfold cancel_booking at hcan
        rw [hfind] at hcan
        exact Except.noConfusion hcan
    · intro hall
      have hfind : find_booking s bid = none := (hkey bid).mpr hall
      unfold cancel_booking
      rw [hfind]

/-- Concrete run for C7 on a store holding one cancelled booking. -/
theorem claim_C7_cancel_idempotent_and_notfound_witness :
    (∀ b ∈ (⟨[⟨1, 1, 1, 0, 60, "cancelled", 0⟩], 2⟩ : LStore).bookings,
      b.status = "cancelled" →
      cancel_booking ⟨[⟨1, 1, 1, 0, 60, "cancelled", 0⟩], 2⟩ b.id =
        Except.ok ⟨[⟨1, 1, 1, 0, 60, "cancelled", 0⟩], 2⟩) ∧
    (∀ bid, cancel_booking ⟨[⟨1, 1, 1, 0, 60, "cancelled", 0⟩], 2⟩ bid =
        Except.error BErr.notFound ↔
      ∀ b ∈ (⟨[⟨1, 1, 1, 0, 60, "cancelled", 0⟩], 2⟩ : LStore).bookings,
        b.id ≠ bid) :=
  claim_C7_cancel_idempotent_and_notfound ⟨[⟨1, 1, 1, 0, 60, "cancelled", 0⟩], 2⟩
    (by decide)

/-- C8 counterexample: a store satisfying I2 with distinct ids in which an
update that keeps a stored booking's own room and interval DOES fail with a
slot conflict — the booking is cancelled, and another confirmed booking
occupies its old slot; self-exclusion by id does not protect it. -/
theorem claim_C8_counterexample :
    noConfirmedOverlap ⟨[⟨1, 1, 1, 0, 60, "cancelled", 0⟩,
      ⟨2, 1, 1, 0, 60, "confirmed", 0⟩], 3⟩ ∧
    idsNodup ⟨[⟨1, 1, 1, 0, 60, "cancelled", 0⟩,
      ⟨2, 1, 1, 0, 60, "confirmed", 0⟩], 3⟩ ∧
    update_booking ⟨[⟨1, 1, 1, 0, 60, "cancelled", 0⟩,
      ⟨2, 1, 1, 0, 60, "confirmed", 0⟩], 3⟩ 1 ⟨none, none, none⟩ =
      Except.error BErr.slotConflict :=
  ⟨by decide, by decide, rfl⟩

/-- C8 amended: for a stored CONFIRMED booking, in a store satisfying I2 with
distinct ids, an update whose merged room and interval equal the booking's
own current values never fails with SlotConflict (self-exclusion by id works
for confirmed bookings). -/
theorem claim_C8_amended (s : LStore) (x : LBooking) (patch : LBookingUpdate)
    (hnd : idsNodup s) (hinv : noConfirmedOverlap s) (hx : x ∈ s.bookings)
    (hconf : x.status = "confirmed")
    (hroom : patch.room_id.getD x.room_id = x.room_id)
    (hst : patch.start_time.getD x.start_time = x.start_time)
    (hen : patch.end_time.getD x.end_time = x.end_time)
    (hr : x.start_time < x.end_time) :
    update_booking s x.id patch ≠ Except.error BErr.slotConflict := by
  have hfind : find_booking s x.id = some x := find?_id_eq_of_nodup hnd hx
  have hov : ¬ (has_overlap s (patch.room_id.getD x.room_id)
      (patch.start_time.getD x.start_time) (patch.end_time.getD x.end_time)
      (some x.id) = true) := by
    rw [hroom, hst, hen]
    intro hval
    rw [has_overlap, List.any_eq_true] at hval
    obtain ⟨c, hc, hhit⟩ := hval
    unfold scanHit at hhit
    simp only [Bool.and_eq_true, beq_iff_eq, bne_iff_ne] at hhit
    obtain ⟨⟨⟨hcr, hcs⟩, hcov⟩, hcid⟩ := hhit
    have hfa := hinv c hc x hx hcid hcs hconf hcr
    rw [hfa] at hcov
    exact absurd hcov (by simp)
  unfold update_booking
  rw [hfind]
  dsimp only
  rw [if_neg (by rw [hst, hen]; exact not_le.mpr hr), if_neg hov]
  intro hcon
  exact Except.noConfusion hcon

/-- Concrete run for the amended C8: updating the confirmed 10:00-11:00
booking with an empty patch does not raise a slot conflict. -/
theorem claim_C8_amended_witness :
    update_booking demoStoreA 1 ⟨none, none, none⟩ ≠
      Except.error BErr.slotConflict :=
  claim_C8_amended demoStoreA ⟨1, 1, 1, 600, 660, "confirmed", 0⟩
    ⟨none, none, none⟩ (by decide) (by decide) (by decide) (by decide)
    (by decide) (by decide) (by decide) (by decide)

/-- Concrete run for the amended C6: a status-free patch on a store holding a
cancelled booking succeeds with every stored status, and the returned row's
status, unchanged. -/
theorem claim_C6_amended_witness :
    (⟨[⟨1, true⟩], [⟨1, 1, 1, 0, 60, "cancelled"⟩], 2⟩ : SStore).bookings.map
        SBooking.status =
      (⟨[⟨1, true⟩], [⟨1, 1, 1, 0, 60, "cancelled"⟩], 2⟩ : SStore).bookings.map
        SBooking.status ∧
    ∃ b, (⟨[⟨1, true⟩], [⟨1, 1, 1, 0, 60, "cancelled"⟩], 2⟩ :
        SStore).bookings.find? (fun c => c.id == 1) = some b ∧
      (⟨1, 1, 1, 0, 60, "cancelled"⟩ : SBooking).status = b.status :=
  claim_C6_amended ⟨[⟨1, true⟩], [⟨1, 1, 1, 0, 60, "cancelled"⟩], 2⟩ 1
    ⟨none, none, none, none⟩ ⟨1, 1, 1, 0, 60, "cancelled"⟩
    ⟨[⟨1, true⟩], [⟨1, 1, 1, 0, 60, "cancelled"⟩], 2⟩ rfl rfl

/-- C9: whenever a creation run returns a booking, the returned booking and
the final store are the same for every outcome of the event emission — the
RabbitMQ failure is swallowed and never rolls back or fails the creation. -/
theorem claim_C9_emit_isolated (s : SStore) (u : Nat) (inp : SBookingCreate)
    (e1 e2 : Except String Unit) (b : SBooking)
    (h : (s_create_booking s u inp e1).result = Except.ok b) :
    (s_create_booking s u inp e2).result = Except.ok b ∧
    (s_create_booking s u inp e2).store = (s_create_booking s u inp e1).store := by
  unfold s_create_booking at h ⊢
  by_cases h1 : inp.end_time ≤ inp.start_time
  · rw [if_pos h1] at h
    simp at h
  · simp only [if_neg h1] at h ⊢
    cases hfind : s.rooms.find? (fun r => r.id == inp.room_id && r.is_active) with
    | none =>
      rw [hfind] at h
      simp at h
    | some room =>
      rw [hfind] at h
      dsimp only at h ⊢
      by_cases h2 : ensure_availability_conflict s inp.room_id inp.start_time
          inp.end_time none = true
      · rw [if_pos h2] at h
        simp at h
      · simp only [if_neg h2] at h ⊢
        cases e1 <;> cases e2 <;> exact ⟨h, rfl⟩

/-- Services-variant store with one active room and no bookings. -/
def demoSStoreB : SStore := ⟨[⟨1, true⟩], [], 1⟩

/-- Concrete run for C9: the same creation with a failing and with a
succeeding emission returns the same booking and the same store. -/
theorem claim_C9_emit_isolated_witness :
    (s_create_booking demoSStoreB 7 ⟨1, 0, 60, "confirmed"⟩ (Except.ok ())).result =
      Except.ok ⟨1, 7, 1, 0, 60, "confirmed"⟩ ∧
    (s_create_booking demoSStoreB 7 ⟨1, 0, 60, "confirmed"⟩ (Except.ok ())).store =
      (s_create_booking demoSStoreB 7 ⟨1, 0, 60, "confirmed"⟩
        (Except.error "sink down")).store :=
  claim_C9_emit_isolated demoSStoreB 7 ⟨1, 0, 60, "confirmed"⟩
    (Except.error "sink down") (Except.ok ()) ⟨1, 7, 1, 0, 60, "confirmed"⟩ rfl

/-- C10: a successful cancellation preserves the id counter and the list
length, and row by row: a row whose id differs from the target is exactly
unchanged, and any changed row is the old row with only its status replaced
by "cancelled" (id, user, room, interval and created_at intact). -/
theorem claim_C10_cancel_frame (s : LStore) (bid : Nat) (s' : LStore)
    (h : cancel_booking s bid = Except.ok s') :
    s'.nextId = s.nextId ∧ s'.bookings.length = s.bookings.length ∧
    ∀ (i : Nat) (x : LBooking), s.bookings[i]? = some x →
      ∃ y, s'.bookings[i]? = some y ∧
        (y = x ∨ (x.id = bid ∧ y = { x with status := "cancelled" })) ∧
        (x.id ≠ bid → y = x) := by
  have hs := cancel_booking_ok h
  subst hs
  refine ⟨rfl, length_setFirstById _ _ _, ?_⟩
  intro i x hx
  obtain ⟨y, hy, hcase⟩ := getElem?_setFirstById s.bookings bid
    (fun c => { c with status := "cancelled" }) i x hx
  refine ⟨y, hy, hcase, ?_⟩
  intro hne
  rcases hcase with h1 | ⟨h2, h3⟩
  · exact h1
  · exact absurd h2 hne

/-- Concrete run for C10: cancelling the one booking of the demo store flips
exactly its status. -/
theorem claim_C10_cancel_frame_witness :
    (⟨[⟨1, 1, 1, 600, 660, "cancelled", 0⟩], 2⟩ : LStore).nextId =
      demoStoreA.nextId ∧
    (⟨[⟨1, 1, 1, 600, 660, "cancelled", 0⟩], 2⟩ : LStore).bookings.length =
      demoStoreA.bookings.length ∧
    ∀ (i : Nat) (x : LBooking), demoStoreA.bookings[i]? = some x →
      ∃ y, (⟨[⟨1, 1, 1, 600, 660, "cancelled", 0⟩], 2⟩ : LStore).bookings[i]? =
          some y ∧
        (y = x ∨ (x.id = 1 ∧ y = { x with status := "cancelled" })) ∧
        (x.id ≠ 1 → y = x) :=
  claim_C10_cancel_frame demoStoreA 1
    ⟨[⟨1, 1, 1, 600, 660, "cancelled", 0⟩], 2⟩ rfl
